import Mathlib

/-!
Verification of the ProGest2 farm-management analytics layer.

The development shallowly embeds the entity model (`Dono`, `Propriedade`,
`Animal`, `Lote`, `Usuario`), the four analytical queries of the
`/api/bi/dashboard` endpoint, the dashboard summary statistics of `index`,
and the `cadastrarProprietario` and `lotes` creation handlers of `app.py`.
Relational primitives (inner join, `GROUP BY`, `SUM`, `COALESCE`,
`ORDER BY ... DESC`) are modelled over lists of rows.
-/

set_option linter.unusedVariables false

namespace ProGest

/-- Calendar date, the value of a SQL `Date` column. -/
structure Date where
  year : Nat
  month : Nat
  day : Nat
deriving DecidableEq, Repr

/-- Table `dono` (`class Dono`): `email` and `telefone` are nullable columns. -/
structure Dono where
  id : Int
  nome : String
  cpf_cnpj : String
  email : Option String
  telefone : Option String
deriving DecidableEq, Repr

/-- Table `propriedade` (`class Propriedade`); every column is declared
`nullable=False`.  `area_total_ha` is `Numeric(10, 2)`, an exact decimal,
modelled as a rational number. -/
structure Propriedade where
  id : Int
  nome : String
  municipio : String
  estado : String
  area_total_ha : ℚ
  dono_id : Int
deriving DecidableEq, Repr

/-- Table `animal` (`class Animal`): the `raca` column is nullable. -/
structure Animal where
  id : Int
  tipo : String
  raca : Option String
deriving DecidableEq, Repr

/-- Table `lote` (`class Lote`): `quantidade` is `nullable=False`, so every
stored batch carries a non-null count; `data_registro` is nullable. -/
structure Lote where
  id : Int
  propriedade_id : Int
  animal_id : Int
  quantidade : Int
  data_registro : Option Date
deriving DecidableEq, Repr

/-- Table `usuario` (`class Usuario`). -/
structure Usuario where
  id : Int
  username : String
  password : String
deriving DecidableEq, Repr

/-- One database state: the five tables. -/
structure Store where
  donos : List Dono
  propriedades : List Propriedade
  animais : List Animal
  lotes : List Lote
  usuarios : List Usuario
deriving DecidableEq, Repr

/-- Constraints the MySQL schema enforces on every reachable database state:
primary keys are unique, `dono.cpf_cnpj` is unique, and the three foreign
keys (`propriedade.dono_id`, `lote.propriedade_id`, `lote.animal_id`)
reference existing rows. -/
def Store.WF (s : Store) : Prop :=
  (s.donos.map Dono.id).Nodup ∧
  (s.donos.map Dono.cpf_cnpj).Nodup ∧
  (s.propriedades.map Propriedade.id).Nodup ∧
  (s.animais.map Animal.id).Nodup ∧
  (s.lotes.map Lote.id).Nodup ∧
  (∀ p ∈ s.propriedades, ∃ d ∈ s.donos, d.id = p.dono_id) ∧
  (∀ l ∈ s.lotes, (∃ p ∈ s.propriedades, p.id = l.propriedade_id) ∧
                  (∃ a ∈ s.animais, a.id = l.animal_id))

instance (s : Store) : Decidable s.WF := by
  unfold Store.WF
  infer_instance

/-! ### Relational primitives -/

/-- Distinct key values occurring in `l`, in first-occurrence order.
SQL `GROUP BY` produces one group per distinct key value (`NULL` keys form
a single group, matching `Option` equality). -/
def keysOf [DecidableEq κ] (key : α → κ) (l : List α) : List κ :=
  (l.map key).dedup

/-- SQL `GROUP BY`: one group per distinct key, holding the rows carrying
that key.  Every group produced is nonempty. -/
def groupsOf [DecidableEq κ] (key : α → κ) (l : List α) : List (κ × List α) :=
  (keysOf key l).map (fun k => (k, l.filter (fun r => decide (key r = k))))

/-- SQL `SUM` of a column over a group: `NULL` on an empty group, the
arithmetic sum otherwise (all modelled columns are `nullable=False`). -/
def sqlSum [AddCommMonoid β] (xs : List β) : Option β :=
  if xs.isEmpty then none else some xs.sum

/-- SQL `COALESCE(x, d)`. -/
def coalesce (x : Option β) (d : β) : β :=
  x.getD d

/-- SQL `ORDER BY f(row) DESC`.  The relative order of ties is not specified
by the source query; any sort by the key descending is a faithful model. -/
def orderByDesc [LinearOrder β] (f : α → β) (l : List α) : List α :=
  l.insertionSort (fun a b => f b ≤ f a)

/-! ### The four analytical queries of `bi_dashboard` -/

/-- Rows of the inner join `dono ⋈ propriedade ⋈ lote` on
`propriedade.dono_id = dono.id` and `lote.propriedade_id = propriedade.id`
(the join chain of query 1). -/
def joinDPL (s : Store) : List (Dono × Propriedade × Lote) :=
  s.donos.flatMap (fun d =>
    (s.propriedades.filter (fun p => decide (p.dono_id = d.id))).flatMap (fun p =>
      (s.lotes.filter (fun l => decide (l.propriedade_id = p.id))).map (fun l => (d, p, l))))

/-- Rows of the inner join `dono ⋈ propriedade` on
`propriedade.dono_id = dono.id` (the join of query 3). -/
def joinDP (s : Store) : List (Dono × Propriedade) :=
  s.donos.flatMap (fun d =>
    (s.propriedades.filter (fun p => decide (p.dono_id = d.id))).map (fun p => (d, p)))

/-- Rows of the inner join `animal ⋈ lote` on `lote.animal_id = animal.id`
(the join of query 2). -/
def joinAL (s : Store) : List (Animal × Lote) :=
  s.animais.flatMap (fun a =>
    (s.lotes.filter (fun l => decide (l.animal_id = a.id))).map (fun l => (a, l)))

/-- Query 1 result rows keyed by the `GROUP BY` key `dono.id`:
`(dono.id, dono.nome, COALESCE(SUM(lote.quantidade), 0))`, ordered by the
group sum descending.  Groups are nonempty, so the `ORDER BY SUM(...)` key
coincides with the coalesced total. -/
def q1entries (s : Store) : List (Int × String × Int) :=
  orderByDesc (fun r => r.2.2)
    ((groupsOf (fun r => r.1.id) (joinDPL s)).map (fun g =>
      (g.1, (g.2.head?.map (fun r => r.1.nome)).getD "",
       coalesce (sqlSum (g.2.map (fun r => r.2.2.quantidade))) 0)))

/-- The `data["animais_por_proprietario"]` array:
`{proprietario, total_animais}` per row of query 1. -/
def animais_por_proprietario (s : Store) : List (String × Int) :=
  (q1entries s).map (fun r => (r.2.1, r.2.2))

/-- Query 2 result rows keyed by the raw `GROUP BY` key `animal.raca`:
`(animal.raca, COALESCE(SUM(lote.quantidade), 0))`, ordered by the group
sum descending. -/
def q2entries (s : Store) : List (Option String × Int) :=
  orderByDesc (fun r => r.2)
    ((groupsOf (fun r => r.1.raca) (joinAL s)).map (fun g =>
      (g.1, coalesce (sqlSum (g.2.map (fun r => r.2.quantidade))) 0)))

/-- The Python expression `r.raca or "Não informado"`: both `None` and the
empty string are falsy, so both display as the literal label. -/
def racaLabel (o : Option String) : String :=
  match o with
  | none => "Não informado"
  | some r => if r = "" then "Não informado" else r

/-- The `data["animais_por_raca"]` array: `{raca, total}` per row of
query 2, with `r.raca or "Não informado"` as the label. -/
def animais_por_raca (s : Store) : List (String × Int) :=
  (q2entries s).map (fun r => (racaLabel r.1, r.2))

/-- Query 3 result rows keyed by the `GROUP BY` key `dono.id`:
`(dono.id, dono.nome, COALESCE(SUM(propriedade.area_total_ha), 0))`,
ordered by the group sum descending. -/
def q3entries (s : Store) : List (Int × String × ℚ) :=
  orderByDesc (fun r => r.2.2)
    ((groupsOf (fun r => r.1.id) (joinDP s)).map (fun g =>
      (g.1, (g.2.head?.map (fun r => r.1.nome)).getD "",
       coalesce (sqlSum (g.2.map (fun r => r.2.area_total_ha))) 0)))

/-- The `data["area_por_proprietario"]` array: `{proprietario, total_ha}`
per row of query 3.  The `float(r.total_ha)` display coercion is modelled
as the exact rational value. -/
def area_por_proprietario (s : Store) : List (String × ℚ) :=
  (q3entries s).map (fun r => (r.2.1, r.2.2))

/-- Query 4 result rows keyed by the raw `GROUP BY` key
`propriedade.estado`: `(estado, COUNT(propriedade.id))`, ordered by the
count descending.  No join is involved. -/
def q4entries (s : Store) : List (String × Int) :=
  orderByDesc (fun r => r.2)
    ((groupsOf Propriedade.estado s.propriedades).map (fun g =>
      (g.1, (g.2.length : Int))))

/-- The Python expression `r.estado or "Não informado"`: `estado` is a
`nullable=False` column, so only the empty string is replaced. -/
def estadoLabel (e : String) : String :=
  if e = "" then "Não informado" else e

/-- The `data["fazendas_por_estado"]` array: `{estado, total_fazendas}`
per row of query 4. -/
def fazendas_por_estado (s : Store) : List (String × Int) :=
  (q4entries s).map (fun r => (estadoLabel r.1, r.2))

/-! ### Rows reachable from one owner or one breed value -/

/-- All batches on all properties of the owner `d`: the batch components of
the join rows query 1 produces for `d`. -/
def ownerLotes (s : Store) (d : Dono) : List Lote :=
  (s.propriedades.filter (fun p => decide (p.dono_id = d.id))).flatMap
    (fun p => s.lotes.filter (fun l => decide (l.propriedade_id = p.id)))

/-- The properties of the owner `d`. -/
def ownerProps (s : Store) (d : Dono) : List Propriedade :=
  s.propriedades.filter (fun p => decide (p.dono_id = d.id))

/-- The join rows of query 1 contributed by the owner `d`. -/
def donoRowsDPL (s : Store) (d : Dono) : List (Dono × Propriedade × Lote) :=
  (s.propriedades.filter (fun p => decide (p.dono_id = d.id))).flatMap (fun p =>
    (s.lotes.filter (fun l => decide (l.propriedade_id = p.id))).map (fun l => (d, p, l)))

/-- The join rows of query 3 contributed by the owner `d`. -/
def donoRowsDP (s : Store) (d : Dono) : List (Dono × Propriedade) :=
  (s.propriedades.filter (fun p => decide (p.dono_id = d.id))).map (fun p => (d, p))

/-- All batches whose animal kind carries the breed value `o`: the batch
components of the join rows query 2 groups under the key `o`. -/
def racaLotes (s : Store) (o : Option String) : List Lote :=
  (s.animais.filter (fun a => decide (a.raca = o))).flatMap
    (fun a => s.lotes.filter (fun l => decide (l.animal_id = a.id)))

/-- The join rows of query 2 grouped under the breed value `o`. -/
def racaRows (s : Store) (o : Option String) : List (Animal × Lote) :=
  (s.animais.filter (fun a => decide (a.raca = o))).flatMap
    (fun a => (s.lotes.filter (fun l => decide (l.animal_id = a.id))).map (fun l => (a, l)))

/-- An exact decimal with at most two fractional digits, the value set of
the `Numeric(10, 2)` column `area_total_ha` (range limits aside). -/
def TwoDecimal (x : ℚ) : Prop :=
  ∃ n : ℤ, x = (n : ℚ) / 100

/-! ### The `/api/bi/dashboard` endpoint and the page routes -/

/-- The four named arrays of a successful BI bundle response. -/
structure BiPayload where
  animais_por_proprietario : List (String × Int)
  animais_por_raca : List (String × Int)
  area_por_proprietario : List (String × ℚ)
  fazendas_por_estado : List (String × Int)
deriving DecidableEq, Repr

/-- Outcome of the `bi_dashboard` view: `jsonify(data)` carrying the four
arrays, or the `except` branch result `jsonify({"error": str(e)}), 500`. -/
inductive BiResponse where
  | success (payload : BiPayload)
  | failure (error : String)
deriving DecidableEq, Repr

/-- HTTP status of the response; `jsonify` alone answers 200, the `except`
branch attaches 500. -/
def BiResponse.status : BiResponse → Nat
  | .success _ => 200
  | .failure _ => 500

/-- Body of the `bi_dashboard` view.  The four queries run in order inside
one `try`; `oᵢ = some e` models query `i` raising an exception carrying
message `e`, and the first raised exception jumps to the `except` branch. -/
def bi_dashboard (s : Store) (o1 o2 o3 o4 : Option String) : BiResponse :=
  match o1 with
  | some e => BiResponse.failure e
  | none =>
    match o2 with
    | some e => BiResponse.failure e
    | none =>
      match o3 with
      | some e => BiResponse.failure e
      | none =>
        match o4 with
        | some e => BiResponse.failure e
        | none =>
          BiResponse.success
            ⟨animais_por_proprietario s, animais_por_raca s,
             area_por_proprietario s, fazendas_por_estado s⟩

/-- The Flask session as the handlers consult it: the optional `user` key. -/
structure Session where
  user : Option String
deriving DecidableEq, Repr

/-- The kinds of response the modelled routes produce. -/
inductive Response where
  | json (body : BiResponse)
  | page (template : String)
  | redirect (target : String)
deriving DecidableEq, Repr

/-- Whether a response is a redirect (the login gate answers one). -/
def Response.isRedirect : Response → Bool
  | .redirect _ => true
  | _ => false

/-- The `@login_required` decorator: with no `user` key in the session the
wrapped view is not run, a warning is flashed and the caller is redirected
to the `login` route. -/
def login_required (f : Session → Response) : Session → Response :=
  fun sess =>
    match sess.user with
    | none => Response.redirect "login"
    | some _ => f sess

/-- Route `GET /api/bi/dashboard`: the source registers `bi_dashboard`
without `@login_required`, so the session is never consulted. -/
def bi_dashboard_route (sess : Session) (s : Store) (o1 o2 o3 o4 : Option String) :
    Response :=
  Response.json (bi_dashboard s o1 o2 o3 o4)

/-- Route `GET /bi/dashboard` (`bi_dashboard_page`), wrapped in
`@login_required`; when it runs it renders the `bi.html` template. -/
def bi_dashboard_page (sess : Session) : Response :=
  login_required (fun _ => Response.page "bi.html") sess

/-! ### The `index` dashboard summary -/

/-- One entry of the static recent-activity list. -/
structure Atividade where
  tipo : String
  descricao : String
  tempo : String
deriving DecidableEq, Repr

/-- The view-model handed to `render_template` by the `index` view, plus
the flashed `(message, category)` pairs of the request. -/
structure IndexRender where
  proprietarios_count : Nat
  propriedades_count : Nat
  propriedades_ativas : Nat
  animais_count : Nat
  tipos_animais : Nat
  lotes_count : Nat
  raca_animais : Nat
  lotes_ativos : Nat
  quantidade_count : Int
  atividades_recentes : List Atividade
  lotes : List Lote
  flashes : List (String × String)
deriving DecidableEq, Repr

/-- Sort key for `ORDER BY lote.data_registro DESC`: calendar dates compare
lexicographically by (year, month, day) under this key, and MySQL places
`NULL` dates last in a descending sort. -/
def loteDateKey (l : Lote) : Int :=
  match l.data_registro with
  | none => -1
  | some d => (d.year : Int) * 10000 + (d.month : Int) * 100 + (d.day : Int)

/-- The hard-coded `atividades_recentes` list of the `index` view. -/
def atividadesEstaticas : List Atividade :=
  [⟨"propriedade", "Nova propriedade cadastrada", "há 2 horas"⟩,
   ⟨"animal", "Novo tipo de animal registrado", "há 1 dia"⟩,
   ⟨"lote", "Lote de animais atualizado", "há 3 dias"⟩]

/-- The `index` view.  The whole statistics block runs in one `try`;
`o = some e` models any one of the statistic computations raising an
exception with message `e`, which sends the handler to the `except` branch
that zeroes every statistic, empties both lists and flashes one danger
message.  `COUNT(DISTINCT raca)` ignores `NULL` values, hence the
`filterMap`; `scalar() or 0` coalesces the ungrouped `SUM` exactly as
`COALESCE(..., 0)` does. -/
def index_view (s : Store) (o : Option String) : IndexRender :=
  match o with
  | some e =>
    { proprietarios_count := 0, propriedades_count := 0, propriedades_ativas := 0,
      animais_count := 0, tipos_animais := 0, lotes_count := 0, raca_animais := 0,
      lotes_ativos := 0, quantidade_count := 0,
      atividades_recentes := [], lotes := [],
      flashes := [("Erro ao carregar dados do dashboard: " ++ e, "danger")] }
  | none =>
    { proprietarios_count := s.donos.length,
      propriedades_count := s.propriedades.length,
      propriedades_ativas := s.propriedades.length,
      animais_count := s.animais.length,
      tipos_animais := ((s.animais.map Animal.tipo).dedup).length,
      lotes_count := s.lotes.length,
      raca_animais := ((s.animais.filterMap Animal.raca).dedup).length,
      lotes_ativos := s.lotes.length,
      quantidade_count := coalesce (sqlSum (s.lotes.map Lote.quantidade)) 0,
      atividades_recentes := atividadesEstaticas,
      lotes := orderByDesc loteDateKey s.lotes,
      flashes := [] }

/-! ### The creation handlers -/

/-- The characters Python `str.strip()` and `int()` treat as whitespace. -/
def pySpace (c : Char) : Bool :=
  decide (c = ' ' ∨ c = '\t' ∨ c = '\n' ∨ c = '\r' ∨ c = '\x0b' ∨ c = '\x0c')

/-- Both-ends whitespace strip over the character list of a string. -/
def pyStripChars (cs : List Char) : List Char :=
  ((cs.dropWhile pySpace).reverse.dropWhile pySpace).reverse

/-- Python `(request.form.get(k) or '').strip()` on an optional form field. -/
def pyStrip (x : Option String) : String :=
  String.mk (pyStripChars (x.getD "").data)

/-- The database error the handlers catch as `IntegrityError`. -/
inductive InsertError where
  | integrityError
deriving DecidableEq, Repr

/-- Row insert into `dono`: the unique constraint on `cpf_cnpj` makes the
commit raise `IntegrityError` exactly when a stored owner already carries
the submitted value. -/
def insertDono (s : Store) (d : Dono) : Except InsertError Store :=
  if s.donos.any (fun d0 => decide (d0.cpf_cnpj = d.cpf_cnpj)) then
    Except.error InsertError.integrityError
  else
    Except.ok { s with donos := s.donos ++ [d] }

/-- The `cadastrarProprietario` POST view: strip the form fields, validate,
insert and flash `(message, category)`.  `newId` stands for the
auto-increment id the database assigns.  Every failure path rolls the
session back, leaving the store unchanged. -/
def cadastrarProprietario (s : Store) (newId : Int)
    (nome cpf_cnpj telefone email : Option String) : Store × (String × String) :=
  let nomeV := pyStrip nome
  let cpfV := pyStrip cpf_cnpj
  let telV := pyStrip telefone
  let emailV := pyStrip email
  if nomeV = "" ∨ cpfV = "" then
    (s, ("Campo nome e cpf/cnpj são obrigatórios", "warning"))
  else
    match insertDono s ⟨newId, nomeV, cpfV, some emailV, some telV⟩ with
    | Except.ok s1 => (s1, ("Proprietário cadastrado com sucesso.", "success"))
    | Except.error _ => (s, ("CPF/CNPJ já cadastrado.", "warning"))

/-- Decimal digit run to a number; `none` on a non-digit or on no input. -/
def pyNatAux : List Char → Nat → Option Nat
  | [], acc => some acc
  | c :: cs, acc =>
    if c.isDigit then pyNatAux cs (acc * 10 + (c.toNat - 48)) else none

/-- Nonempty all-digit character run parsed as a natural number. -/
def pyNat (cs : List Char) : Option Nat :=
  if cs.isEmpty then none else pyNatAux cs 0

/-- Optional sign followed by a digit run. -/
def pyIntChars : List Char → Option Int
  | '-' :: cs => (pyNat cs).map (fun n => -(n : Int))
  | '+' :: cs => (pyNat cs).map (fun n => (n : Int))
  | cs => (pyNat cs).map (fun n => (n : Int))

/-- Python `int(s)`: an optional sign and decimal digits, surrounding
whitespace tolerated; anything else raises `ValueError`. -/
def pyInt (x : String) : Option Int :=
  pyIntChars (pyStripChars x.data)

/-- Gregorian leap-year rule. -/
def isLeap (y : Nat) : Bool :=
  decide ((y % 4 = 0 ∧ y % 100 ≠ 0) ∨ y % 400 = 0)

/-- Days of month `m` in year `y`. -/
def daysInMonth (y m : Nat) : Nat :=
  if m = 2 then (if isLeap y then 29 else 28)
  else if m = 4 ∨ m = 6 ∨ m = 9 ∨ m = 11 then 30
  else 31

/-- Split a character list on the dash character, keeping empty pieces
(as Python `str.split("-")` does). -/
def splitOnDash : List Char → List (List Char)
  | [] => [[]]
  | c :: cs =>
    if c = '-' then [] :: splitOnDash cs
    else
      match splitOnDash cs with
      | [] => [[c]]
      | g :: gs => (c :: g) :: gs

/-- Model of `datetime.strptime(s, "%Y-%m-%d").date()`: a four-digit year
and a one- or two-digit month and day, dash-separated, forming a valid
calendar date; any other input raises, modelled as `none`. -/
def parseDate (str : String) : Option Date :=
  match splitOnDash str.data with
  | [ys, ms, ds] =>
    match pyNat ys, pyNat ms, pyNat ds with
    | some y, some m, some d =>
      if ys.length = 4 ∧ ms.length ≤ 2 ∧ ds.length ≤ 2 ∧
         1 ≤ m ∧ m ≤ 12 ∧ 1 ≤ d ∧ d ≤ daysInMonth y m then
        some ⟨y, m, d⟩
      else none
    | _, _, _ => none
  | _ => none

/-- Row insert into `lote`: the two foreign keys must reference existing
rows, else the commit raises `IntegrityError`. -/
def insertLote (s : Store) (l : Lote) : Except InsertError Store :=
  if s.propriedades.any (fun p => decide (p.id = l.propriedade_id)) &&
     s.animais.any (fun a => decide (a.id = l.animal_id)) then
    Except.ok { s with lotes := s.lotes ++ [l] }
  else
    Except.error InsertError.integrityError

/-- The POST branch of the `lotes` view: validate presence of the three
required fields, convert `quantidade`, silently fall back to a null date on
an unparsable `data_registro`, convert the two ids and insert.  All
conversions and the insert run inside one `try` whose `except` flashes a
danger message and rolls back; the interpolated exception text is
abbreviated to the exception kind. -/
def lotes_post (s : Store) (newId : Int)
    (propriedade_id animal_id quantidade data_registro : Option String) :
    Store × (String × String) :=
  let pid := propriedade_id.getD ""
  let aid := animal_id.getD ""
  let qs := quantidade.getD ""
  let dstr := data_registro.getD ""
  if pid = "" ∨ aid = "" ∨ qs = "" then
    (s, ("Informe propriedade, animal e quantidade.", "warning"))
  else
    match pyInt qs with
    | none => (s, ("Erro ao registrar lote: ValueError", "danger"))
    | some qnt =>
      let data_registro_val : Option Date := if dstr = "" then none else parseDate dstr
      match pyInt pid, pyInt aid with
      | some pidV, some aidV =>
        match insertLote s ⟨newId, pidV, aidV, qnt, data_registro_val⟩ with
        | Except.ok s1 => (s1, ("Lote registrado com sucesso.", "success"))
        | Except.error _ => (s, ("Erro ao registrar lote: IntegrityError", "danger"))
      | _, _ => (s, ("Erro ao registrar lote: ValueError", "danger"))

/-! ### Concrete stores used as witnesses and counterexamples -/

/-- A store with no rows at all. -/
def emptyStore : Store :=
  ⟨[], [], [], [], []⟩

/-- The scenario store of the specification: owner Ana with a 10.00 ha
property carrying no batch and a 5.50 ha property carrying one batch of
20 animals. -/
def anaStore : Store :=
  ⟨[⟨1, "Ana", "111.111.111-11", none, none⟩],
   [⟨1, "Fazenda Um", "Cidade", "SP", 10.00, 1⟩,
    ⟨2, "Fazenda Dois", "Cidade", "SP", 5.50, 1⟩],
   [⟨1, "Bovino", some "Nelore"⟩],
   [⟨1, 2, 1, 20, none⟩],
   []⟩

/-- A well-formed store holding one animal kind with a `NULL` breed and one
with an empty-string breed, each with one batch. -/
def racaCounterStore : Store :=
  ⟨[⟨1, "Zed", "222.222.222-22", none, none⟩],
   [⟨1, "Fazenda", "Cidade", "SP", 1, 1⟩],
   [⟨1, "Bovino", none⟩, ⟨2, "Equino", some ""⟩],
   [⟨1, 1, 1, 1, none⟩, ⟨2, 1, 2, 2, none⟩],
   []⟩

/-! ### Generic lemmas about the relational primitives -/

theorem orderByDesc_perm [LinearOrder β] (f : α → β) (l : List α) :
    List.Perm (orderByDesc f l) l :=
  List.perm_insertionSort _ l

theorem pairwise_orderByDesc [LinearOrder β] (f : α → β) (l : List α) :
    (orderByDesc f l).Pairwise (fun a b => f b ≤ f a) := by
  haveI : IsTotal α (fun a b => f b ≤ f a) := ⟨fun a b => le_total (f b) (f a)⟩
  haveI : IsTrans α (fun a b => f b ≤ f a) := ⟨fun a b c hab hbc => le_trans hbc hab⟩
  exact List.sorted_insertionSort _ l

theorem mem_keysOf [DecidableEq κ] {key : α → κ} {l : List α} {k : κ} :
    k ∈ keysOf key l ↔ ∃ r ∈ l, key r = k := by
  simp [keysOf, List.mem_dedup]

theorem nodup_keysOf [DecidableEq κ] (key : α → κ) (l : List α) :
    (keysOf key l).Nodup :=
  List.nodup_dedup _

theorem filter_eq_of_nodup [DecidableEq κ] :
    ∀ ks : List κ, ks.Nodup → ∀ k : κ,
      ks.filter (fun x => decide (x = k)) = if k ∈ ks then [k] else []
  | [], _, k => by simp
  | a :: ks, hnd, k => by
    rcases List.nodup_cons.mp hnd with ⟨ha, hnd'⟩
    by_cases hak : a = k
    · subst hak
      have : ks.filter (fun x => decide (x = a)) = [] :=
        List.filter_eq_nil_iff.mpr (fun x hx => by
          simp only [decide_eq_true_eq]
          exact fun h => ha (h ▸ hx))
      simp [List.filter_cons, this]
    · have hrec := filter_eq_of_nodup ks hnd' k
      by_cases hk : k ∈ ks <;>
        simp [List.filter_cons, hak, hrec, hk, Ne.symm hak]

/-- Filtering the rows that a key-preserving map produces from the groups of
a `GROUP BY` down to one key yields the single entry of that key, when the
key has any row at all, and nothing otherwise. -/
theorem filter_groupEntries [DecidableEq κ] {σ : Type _} (key : α → κ) (l : List α)
    (rest : κ × List α → σ) (k : κ) :
    ((groupsOf key l).map (fun g => (g.1, rest g))).filter (fun e => decide (e.1 = k)) =
      if k ∈ keysOf key l then
        [(k, rest (k, l.filter (fun r => decide (key r = k))))]
      else [] := by
  unfold groupsOf
  rw [List.map_map, List.filter_map]
  have hfun : ((fun e : κ × σ => decide (e.1 = k)) ∘
      ((fun g : κ × List α => (g.1, rest g)) ∘
        fun k' => (k', l.filter (fun r => decide (key r = k'))))) =
      (fun x => decide (x = k)) := rfl
  rw [hfun, filter_eq_of_nodup _ (nodup_keysOf key l) k]
  by_cases hk : k ∈ keysOf key l <;> simp [hk]

/-- Same fact, after the final `ORDER BY`: sorting permutes entries, and a
permutation of a singleton or of the empty list is that list itself. -/
theorem filter_orderByDesc_groupEntries [DecidableEq κ] [LinearOrder β] {σ : Type _}
    (key : α → κ) (l : List α) (rest : κ × List α → σ) (F : κ × σ → β) (k : κ) :
    ((orderByDesc F ((groupsOf key l).map (fun g => (g.1, rest g)))).filter
        (fun e => decide (e.1 = k))) =
      if k ∈ keysOf key l then
        [(k, rest (k, l.filter (fun r => decide (key r = k))))]
      else [] := by
  have hperm := (orderByDesc_perm F ((groupsOf key l).map (fun g => (g.1, rest g)))).filter
    (fun e => decide (e.1 = k))
  rw [filter_groupEntries key l rest k] at hperm
  by_cases hk : k ∈ keysOf key l
  · rw [if_pos hk] at hperm ⊢
    exact List.perm_singleton.mp hperm
  · rw [if_neg hk] at hperm ⊢
    exact hperm.eq_nil

theorem sum_map_ite [DecidableEq κ] [AddCommMonoid β] (b : β) (k0 : κ) :
    ∀ ks : List κ, ks.Nodup → k0 ∈ ks →
      (ks.map (fun k => if k0 = k then b else 0)).sum = b
  | [], _, hk => by simp at hk
  | a :: ks, hnd, hk => by
    rcases List.nodup_cons.mp hnd with ⟨ha, hnd'⟩
    rcases List.mem_cons.mp hk with h0 | h0
    · subst h0
      have : ((ks.map (fun k => if k0 = k then b else 0))).sum = 0 :=
        List.sum_eq_zero (by
          intro x hx
          rcases List.mem_map.mp hx with ⟨k, hkks, rfl⟩
          have : k0 ≠ k := fun h => ha (h ▸ hkks)
          simp [this])
      simp [this]
    · have : k0 ≠ a := fun h => ha (h ▸ h0)
      simp [this, sum_map_ite b k0 ks hnd' h0]

/-- Partitioning a list by any duplicate-free family of keys that covers it
preserves the sum of any column. -/
theorem sum_map_filter_key [DecidableEq κ] [AddCommMonoid β] (key : α → κ) (f : α → β) :
    ∀ (l : List α) (ks : List κ), ks.Nodup → (∀ r ∈ l, key r ∈ ks) →
      (ks.map (fun k => ((l.filter (fun r => decide (key r = k))).map f).sum)).sum =
        (l.map f).sum
  | [], ks, _, _ => by simp
  | r :: l, ks, hnd, hcov => by
    have hrec := sum_map_filter_key key f l ks hnd (fun x hx => hcov x (List.mem_cons_of_mem r hx))
    have hsplit : ∀ k : κ,
        (((r :: l).filter (fun x => decide (key x = k))).map f).sum =
          (if key r = k then f r else 0) +
            ((l.filter (fun x => decide (key x = k))).map f).sum := by
      intro k
      by_cases hk : key r = k <;> simp [List.filter_cons, hk]
    calc (ks.map (fun k => (((r :: l).filter (fun x => decide (key x = k))).map f).sum)).sum
        = (ks.map (fun k => (if key r = k then f r else 0) +
            ((l.filter (fun x => decide (key x = k))).map f).sum)).sum := by
          exact congrArg List.sum (List.map_congr_left (fun k _ => hsplit k))
      _ = (ks.map (fun k => if key r = k then f r else 0)).sum +
            (ks.map (fun k => ((l.filter (fun x => decide (key x = k))).map f).sum)).sum := by
          rw [← List.sum_map_add]
      _ = f r + (l.map f).sum := by
          rw [hrec, sum_map_ite (f r) (key r) ks hnd (hcov r (List.mem_cons_self r l))]
      _ = ((r :: l).map f).sum := by simp

/-- A `GROUP BY` partitions the rows, so summing a column group by group
sums it over the whole input. -/
theorem sum_groupsOf [DecidableEq κ] [AddCommMonoid β] (key : α → κ) (f : α → β)
    (l : List α) :
    ((groupsOf key l).map (fun g => ((g.2.map f)).sum)).sum = (l.map f).sum := by
  unfold groupsOf
  rw [List.map_map]
  exact sum_map_filter_key key f l (keysOf key l) (nodup_keysOf key l)
    (fun r hr => mem_keysOf.mpr ⟨r, hr, rfl⟩)

/-- On every list value (also the empty one, where both sides are `0`),
`COALESCE(SUM(v), 0)` is the plain arithmetic sum. -/
theorem coalesce_sqlSum_zero [AddCommMonoid β] (v : List β) :
    coalesce (sqlSum v) 0 = v.sum := by
  cases v <;> simp [coalesce, sqlSum]

theorem sum_map_flatMap [AddCommMonoid β] (g : α → List γ) (f : γ → β) :
    ∀ l : List α,
      ((l.flatMap g).map f).sum = (l.map (fun a => ((g a).map f).sum)).sum
  | [] => by simp
  | a :: l => by
    simp [List.flatMap_cons, sum_map_flatMap g f l]

/-- A `flatMap` whose summands vanish away from one key occurrence collapses
to the contribution of that single element. -/
theorem flatMap_eq_of_nodup_key [DecidableEq κ] (key : α → κ) (G : α → List γ) :
    ∀ l : List α, (l.map key).Nodup → ∀ a ∈ l,
      (∀ x ∈ l, key x ≠ key a → G x = []) → l.flatMap G = G a
  | [], _, a, ha, _ => by simp at ha
  | b :: l, hnd, a, ha, hz => by
    rw [List.map_cons, List.nodup_cons] at hnd
    rcases hnd with ⟨hb, hnd'⟩
    rcases List.mem_cons.mp ha with h0 | h0
    · subst h0
      have : l.flatMap G = [] :=
        List.flatMap_eq_nil_iff.mpr (fun x hx => by
          refine hz x (List.mem_cons_of_mem a hx) (fun h => hb ?_)
          exact h ▸ List.mem_map_of_mem key hx)
      simp [this]
    · have hba : key b ≠ key a := by
        intro h
        exact hb (h ▸ List.mem_map_of_mem key h0)
      have hGb : G b = [] := hz b (List.mem_cons_self b l) hba
      have hrec := flatMap_eq_of_nodup_key key G l hnd' a h0
        (fun x hx h => hz x (List.mem_cons_of_mem b hx) h)
      simp [hGb, hrec]

/-- A `flatMap` whose summands vanish off a predicate restricts to the
sublist satisfying it. -/
theorem flatMap_ite_eq_filter_flatMap (p : α → Bool) (G : α → List γ) :
    ∀ l : List α, (l.flatMap (fun x => if p x then G x else [])) = (l.filter p).flatMap G
  | [] => by simp
  | a :: l => by
    by_cases ha : p a <;>
      simp [List.filter_cons, ha, flatMap_ite_eq_filter_flatMap p G l]

/-- The first row of a nonempty list of rows that all agree on a field
carries that field value. -/
theorem headD_map_of_all {γ : Type _} (rows : List γ) (nm : γ → String) (v : String)
    (hne : rows ≠ []) (hall : ∀ r ∈ rows, nm r = v) :
    ((rows.head?.map nm).getD "") = v := by
  cases rows with
  | nil => exact absurd rfl hne
  | cons r t => simpa using hall r (List.mem_cons_self r t)

theorem joinDPL_eq_flatMap (s : Store) : joinDPL s = s.donos.flatMap (donoRowsDPL s) := rfl

theorem joinDP_eq_flatMap (s : Store) : joinDP s = s.donos.flatMap (donoRowsDP s) := rfl

theorem fst_of_mem_donoRowsDPL {s : Store} {d : Dono} {r : Dono × Propriedade × Lote}
    (hr : r ∈ donoRowsDPL s d) : r.1 = d := by
  simp only [donoRowsDPL, List.mem_flatMap, List.mem_map] at hr
  obtain ⟨p, -, l, -, rfl⟩ := hr
  rfl

theorem fst_of_mem_donoRowsDP {s : Store} {d : Dono} {r : Dono × Propriedade}
    (hr : r ∈ donoRowsDP s d) : r.1 = d := by
  simp only [donoRowsDP, List.mem_map] at hr
  obtain ⟨p, -, rfl⟩ := hr
  rfl

theorem donoRowsDPL_map_lote (s : Store) (d : Dono) :
    (donoRowsDPL s d).map (fun r => r.2.2) = ownerLotes s d := by
  simp [donoRowsDPL, ownerLotes, List.map_flatMap, List.map_map, Function.comp_def]

theorem donoRowsDP_map_prop (s : Store) (d : Dono) :
    (donoRowsDP s d).map (fun r => r.2) = ownerProps s d := by
  simp [donoRowsDP, ownerProps, List.map_map, Function.comp_def]

theorem donoRowsDPL_eq_nil_iff (s : Store) (d : Dono) :
    donoRowsDPL s d = [] ↔ ownerLotes s d = [] := by
  rw [← donoRowsDPL_map_lote, List.map_eq_nil_iff]

theorem donoRowsDP_eq_nil_iff (s : Store) (d : Dono) :
    donoRowsDP s d = [] ↔ ownerProps s d = [] := by
  rw [← donoRowsDP_map_prop, List.map_eq_nil_iff]

/-- With unique owner ids, the rows of the query 1 join carrying the id of
the owner `d` are exactly the rows `d` contributes. -/
theorem filter_joinDPL (s : Store) (hnd : (s.donos.map Dono.id).Nodup)
    (d : Dono) (hd : d ∈ s.donos) :
    (joinDPL s).filter (fun r => decide (r.1.id = d.id)) = donoRowsDPL s d := by
  rw [joinDPL_eq_flatMap, List.filter_flatMap]
  have hcollapse := flatMap_eq_of_nodup_key Dono.id
    (fun d' => (donoRowsDPL s d').filter (fun r => decide (r.1.id = d.id)))
    s.donos hnd d hd (by
      intro x hx hne
      refine List.filter_eq_nil_iff.mpr (fun r hr => ?_)
      rw [fst_of_mem_donoRowsDPL hr]
      simpa using hne)
  rw [hcollapse]
  refine List.filter_eq_self.mpr (fun r hr => ?_)
  rw [fst_of_mem_donoRowsDPL hr]
  simp

/-- With unique owner ids, the rows of the query 3 join carrying the id of
the owner `d` are exactly the rows `d` contributes. -/
theorem filter_joinDP (s : Store) (hnd : (s.donos.map Dono.id).Nodup)
    (d : Dono) (hd : d ∈ s.donos) :
    (joinDP s).filter (fun r => decide (r.1.id = d.id)) = donoRowsDP s d := by
  rw [joinDP_eq_flatMap, List.filter_flatMap]
  have hcollapse := flatMap_eq_of_nodup_key Dono.id
    (fun d' => (donoRowsDP s d').filter (fun r => decide (r.1.id = d.id)))
    s.donos hnd d hd (by
      intro x hx hne
      refine List.filter_eq_nil_iff.mpr (fun r hr => ?_)
      rw [fst_of_mem_donoRowsDP hr]
      simpa using hne)
  rw [hcollapse]
  refine List.filter_eq_self.mpr (fun r hr => ?_)
  rw [fst_of_mem_donoRowsDP hr]
  simp

theorem mem_keysOf_joinDPL (s : Store) (hnd : (s.donos.map Dono.id).Nodup)
    (d : Dono) (hd : d ∈ s.donos) :
    d.id ∈ keysOf (fun r : Dono × Propriedade × Lote => r.1.id) (joinDPL s) ↔
      donoRowsDPL s d ≠ [] := by
  constructor
  · intro h
    obtain ⟨r, hr, hk⟩ := mem_keysOf.mp h
    have : r ∈ (joinDPL s).filter (fun r => decide (r.1.id = d.id)) :=
      List.mem_filter.mpr ⟨hr, by simp [hk]⟩
    rw [filter_joinDPL s hnd d hd] at this
    exact List.ne_nil_of_mem this
  · intro h
    obtain ⟨r, hr⟩ := List.exists_mem_of_ne_nil _ h
    rw [← filter_joinDPL s hnd d hd] at hr
    rcases List.mem_filter.mp hr with ⟨hmem, hk⟩
    exact mem_keysOf.mpr ⟨r, hmem, by simpa using hk⟩

theorem mem_keysOf_iff_filter_ne_nil [DecidableEq κ] (key : α → κ) (l : List α) (k : κ) :
    k ∈ keysOf key l ↔ l.filter (fun r => decide (key r = k)) ≠ [] := by
  rw [mem_keysOf]
  constructor
  · rintro ⟨r, hr, hk⟩
    exact List.ne_nil_of_mem (List.mem_filter.mpr ⟨hr, by simp [hk]⟩)
  · intro h
    obtain ⟨r, hr⟩ := List.exists_mem_of_ne_nil _ h
    rcases List.mem_filter.mp hr with ⟨hm, hk⟩
    exact ⟨r, hm, by simpa using hk⟩

theorem joinAL_eq_flatMap (s : Store) :
    joinAL s = s.animais.flatMap (fun a =>
      (s.lotes.filter (fun l => decide (l.animal_id = a.id))).map (fun l => (a, l))) := rfl

theorem fst_of_mem_animal_rows {s : Store} {a : Animal} {r : Animal × Lote}
    (hr : r ∈ (s.lotes.filter (fun l => decide (l.animal_id = a.id))).map (fun l => (a, l))) :
    r.1 = a := by
  obtain ⟨l, -, rfl⟩ := List.mem_map.mp hr
  rfl

/-- The rows of the query 2 join carrying the breed value `o` are exactly
the rows the animals of that breed contribute; breed values need not be
unique, so several animals may feed one group. -/
theorem filter_joinAL (s : Store) (o : Option String) :
    (joinAL s).filter (fun r => decide (r.1.raca = o)) = racaRows s o := by
  rw [joinAL_eq_flatMap, List.filter_flatMap]
  have hinner : ∀ a : Animal,
      ((s.lotes.filter (fun l => decide (l.animal_id = a.id))).map (fun l => (a, l))).filter
          (fun r => decide (r.1.raca = o)) =
        if decide (a.raca = o) then
          (s.lotes.filter (fun l => decide (l.animal_id = a.id))).map (fun l => (a, l))
        else [] := by
    intro a
    by_cases hra : a.raca = o
    · rw [if_pos (by simpa using hra)]
      exact List.filter_eq_self.mpr (fun r hr => by
        rw [fst_of_mem_animal_rows hr]
        simpa using hra)
    · rw [if_neg (by simpa using hra)]
      exact List.filter_eq_nil_iff.mpr (fun r hr => by
        rw [fst_of_mem_animal_rows hr]
        simpa using hra)
  rw [funext hinner]
  exact flatMap_ite_eq_filter_flatMap (fun a => decide (a.raca = o))
    (fun a => (s.lotes.filter (fun l => decide (l.animal_id = a.id))).map (fun l => (a, l)))
    s.animais

theorem racaRows_map_lote (s : Store) (o : Option String) :
    (racaRows s o).map (fun r => r.2) = racaLotes s o := by
  simp [racaRows, racaLotes, List.map_flatMap, List.map_map, Function.comp_def]

theorem racaRows_eq_nil_iff (s : Store) (o : Option String) :
    racaRows s o = [] ↔ racaLotes s o = [] := by
  rw [← racaRows_map_lote, List.map_eq_nil_iff]

theorem snd_mem_of_mem_joinDP {s : Store} {r : Dono × Propriedade} (hr : r ∈ joinDP s) :
    r.2 ∈ s.propriedades := by
  simp only [joinDP, List.mem_flatMap, List.mem_map] at hr
  obtain ⟨d, -, p, hp, rfl⟩ := hr
  exact (List.mem_filter.mp hp).1

theorem mem_of_mem_groupsOf [DecidableEq κ] {key : α → κ} {l : List α} {g : κ × List α}
    (hg : g ∈ groupsOf key l) {r : α} (hr : r ∈ g.2) : r ∈ l := by
  unfold groupsOf at hg
  obtain ⟨k, -, rfl⟩ := List.mem_map.mp hg
  exact (List.mem_filter.mp hr).1

theorem sum_map_one (l : List α) : (l.map (fun _ => (1 : Int))).sum = (l.length : Int) := by
  induction l with
  | nil => simp
  | cons a t ih =>
    rw [List.map_cons, List.sum_cons, ih, List.length_cons]
    push_cast
    ring

theorem twoDecimal_zero : TwoDecimal 0 :=
  ⟨0, by norm_num⟩

theorem twoDecimal_sum : ∀ l : List ℚ, (∀ x ∈ l, TwoDecimal x) → TwoDecimal l.sum
  | [], _ => twoDecimal_zero
  | a :: t, h => by
    obtain ⟨n, hn⟩ := h a (List.mem_cons_self a t)
    obtain ⟨m, hm⟩ := twoDecimal_sum t (fun x hx => h x (List.mem_cons_of_mem a hx))
    refine ⟨n + m, ?_⟩
    rw [List.sum_cons, hn, hm]
    push_cast
    ring

theorem mem_keysOf_joinDP (s : Store) (hnd : (s.donos.map Dono.id).Nodup)
    (d : Dono) (hd : d ∈ s.donos) :
    d.id ∈ keysOf (fun r : Dono × Propriedade => r.1.id) (joinDP s) ↔
      donoRowsDP s d ≠ [] := by
  constructor
  · intro h
    obtain ⟨r, hr, hk⟩ := mem_keysOf.mp h
    have : r ∈ (joinDP s).filter (fun r => decide (r.1.id = d.id)) :=
      List.mem_filter.mpr ⟨hr, by simp [hk]⟩
    rw [filter_joinDP s hnd d hd] at this
    exact List.ne_nil_of_mem this
  · intro h
    obtain ⟨r, hr⟩ := List.exists_mem_of_ne_nil _ h
    rw [← filter_joinDP s hnd d hd] at hr
    rcases List.mem_filter.mp hr with ⟨hmem, hk⟩
    exact mem_keysOf.mpr ⟨r, hmem, by simpa using hk⟩

/-! ### The claims -/

/-- C1: on every well-formed store (every stored batch carries a non-null
count, `quantidade` being `nullable=False`), query A has, for each owner
with at least one property and at least one batch reachable through its
properties, exactly one record, keyed by the owner id, carrying the owner
name and the arithmetic sum of `quantidade` over all batches of all the
properties of that owner; an owner with no properties, or whose properties
all have no batches (`ownerLotes s d = []`), is absent from the result
entirely.  The published array drops the grouping key:
`animais_por_proprietario` maps `q1entries` to its name and total fields. -/
theorem query_a_totals_per_owner (s : Store) (hwf : s.WF) (d : Dono)
    (hd : d ∈ s.donos) :
    (q1entries s).filter (fun e => decide (e.1 = d.id)) =
      if ownerLotes s d = [] then []
      else [(d.id, d.nome, ((ownerLotes s d).map Lote.quantidade).sum)] := by
  obtain ⟨hnd, -, -, -, -, -, -⟩ := hwf
  unfold q1entries
  rw [filter_orderByDesc_groupEntries (fun r : Dono × Propriedade × Lote => r.1.id)
    (joinDPL s)
    (fun g => ((g.2.head?.map (fun r => r.1.nome)).getD "",
      coalesce (sqlSum (g.2.map (fun r => r.2.2.quantidade))) 0))
    (fun e => e.2.2) d.id]
  by_cases hempty : ownerLotes s d = []
  · have hrows : donoRowsDPL s d = [] := (donoRowsDPL_eq_nil_iff s d).mpr hempty
    have hmem : d.id ∉ keysOf (fun r : Dono × Propriedade × Lote => r.1.id) (joinDPL s) := by
      rw [mem_keysOf_joinDPL s hnd d hd]
      simp [hrows]
    rw [if_neg hmem, if_pos hempty]
  · have hrows : donoRowsDPL s d ≠ [] :=
      fun h => hempty ((donoRowsDPL_eq_nil_iff s d).mp h)
    have hmem : d.id ∈ keysOf (fun r : Dono × Propriedade × Lote => r.1.id) (joinDPL s) :=
      (mem_keysOf_joinDPL s hnd d hd).mpr hrows
    rw [if_pos hmem, if_neg hempty, filter_joinDPL s hnd d hd]
    have hnome : ((donoRowsDPL s d).head?.map (fun r => r.1.nome)).getD "" = d.nome :=
      headD_map_of_all (donoRowsDPL s d) (fun r => r.1.nome) d.nome hrows
        (fun r hr => by
          show r.1.nome = d.nome
          rw [fst_of_mem_donoRowsDPL hr])
    have hsum : (donoRowsDPL s d).map (fun r => r.2.2.quantidade) =
        (ownerLotes s d).map Lote.quantidade := by
      rw [← donoRowsDPL_map_lote s d, List.map_map]
      rfl
    rw [hnome, hsum, coalesce_sqlSum_zero]

/-- Witness for C1 at the scenario store: Ana owns one reachable batch of
20 animals, so query A reports the single record (1, Ana, 20). -/
theorem query_a_totals_per_owner_witness :
    (q1entries anaStore).filter
        (fun e => decide (e.1 = (Dono.mk 1 "Ana" "111.111.111-11" none none).id)) =
      [(1, "Ana", 20)] := by
  have h := query_a_totals_per_owner anaStore (by decide)
    (Dono.mk 1 "Ana" "111.111.111-11" none none) (by decide)
  rw [h]
  decide

/-- C2: on every well-formed store, query C has, for each owner with at
least one property, exactly one record, keyed by the owner id, carrying the
owner name and the sum of `area_total_ha` over exactly the properties of
that owner; with every stored area an exact two-decimal value (which the
`Numeric(10, 2)` column guarantees), every reported total is again an exact
two-decimal value.  On the scenario store, query A reports only the
batch-backed total 20 for Ana while query C reports 15.50. -/
theorem query_c_area_per_owner (s : Store) (hwf : s.WF) (d : Dono)
    (hd : d ∈ s.donos) :
    ((q3entries s).filter (fun e => decide (e.1 = d.id)) =
      if ownerProps s d = [] then []
      else [(d.id, d.nome, ((ownerProps s d).map Propriedade.area_total_ha).sum)])
    ∧ ((∀ p ∈ s.propriedades, TwoDecimal p.area_total_ha) →
        ∀ e ∈ q3entries s, TwoDecimal e.2.2)
    ∧ animais_por_proprietario anaStore = [("Ana", 20)]
    ∧ area_por_proprietario anaStore = [("Ana", 15.50)] := by
  obtain ⟨hnd, -, -, -, -, -, -⟩ := hwf
  refine ⟨?main, ?twodec, by decide, ?scenario⟩
  case main =>
    unfold q3entries
    rw [filter_orderByDesc_groupEntries (fun r : Dono × Propriedade => r.1.id)
      (joinDP s)
      (fun g => ((g.2.head?.map (fun r => r.1.nome)).getD "",
        coalesce (sqlSum (g.2.map (fun r => r.2.area_total_ha))) 0))
      (fun e => e.2.2) d.id]
    by_cases hempty : ownerProps s d = []
    · have hrows : donoRowsDP s d = [] := (donoRowsDP_eq_nil_iff s d).mpr hempty
      have hmem : d.id ∉ keysOf (fun r : Dono × Propriedade => r.1.id) (joinDP s) := by
        rw [mem_keysOf_joinDP s hnd d hd]
        simp [hrows]
      rw [if_neg hmem, if_pos hempty]
    · have hrows : donoRowsDP s d ≠ [] :=
        fun h => hempty ((donoRowsDP_eq_nil_iff s d).mp h)
      have hmem : d.id ∈ keysOf (fun r : Dono × Propriedade => r.1.id) (joinDP s) :=
        (mem_keysOf_joinDP s hnd d hd).mpr hrows
      rw [if_pos hmem, if_neg hempty, filter_joinDP s hnd d hd]
      have hnome : ((donoRowsDP s d).head?.map (fun r => r.1.nome)).getD "" = d.nome :=
        headD_map_of_all (donoRowsDP s d) (fun r => r.1.nome) d.nome hrows
          (fun r hr => by
            show r.1.nome = d.nome
            rw [fst_of_mem_donoRowsDP hr])
      have hsum : (donoRowsDP s d).map (fun r => r.2.area_total_ha) =
          (ownerProps s d).map Propriedade.area_total_ha := by
        rw [← donoRowsDP_map_prop s d, List.map_map]
        rfl
      rw [hnome, hsum, coalesce_sqlSum_zero]
  case twodec =>
    intro hall e he
    unfold q3entries at he
    rw [(orderByDesc_perm _ _).mem_iff] at he
    obtain ⟨g, hg, rfl⟩ := List.mem_map.mp he
    show TwoDecimal (coalesce (sqlSum (g.2.map (fun r => r.2.area_total_ha))) 0)
    rw [coalesce_sqlSum_zero]
    refine twoDecimal_sum _ (fun x hx => ?_)
    obtain ⟨r, hr, rfl⟩ := List.mem_map.mp hx
    exact hall r.2 (snd_mem_of_mem_joinDP (mem_of_mem_groupsOf hg hr))
  case scenario =>
    simp [area_por_proprietario, q3entries, orderByDesc, groupsOf, keysOf,
      joinDP, anaStore, sqlSum, coalesce]
    norm_num

/-- Witness for C2 at the scenario store: the single query C record for Ana
totals 15.50 hectares. -/
theorem query_c_area_per_owner_witness :
    (q3entries anaStore).filter
        (fun e => decide (e.1 = (Dono.mk 1 "Ana" "111.111.111-11" none none).id)) =
      [(1, "Ana", 15.50)] := by
  have h := (query_c_area_per_owner anaStore (by decide)
    (Dono.mk 1 "Ana" "111.111.111-11" none none) (by decide)).1
  rw [h]
  rw [if_neg (by decide)]
  norm_num [ownerProps, anaStore]

/-- C3 counterexample: `racaCounterStore` is a well-formed store holding a
batch of 1 under a `NULL`-breed animal kind and a batch of 2 under an
empty-string-breed animal kind.  SQL `GROUP BY animal.raca` keeps `NULL`
and the empty string as distinct keys, and the Python display expression
labels both `Não informado`, so query B publishes two groups carrying that
label — not exactly one. -/
theorem query_b_two_not_informed_groups :
    racaCounterStore.WF ∧
    animais_por_raca racaCounterStore =
      [("Não informado", 2), ("Não informado", 1)] ∧
    (animais_por_raca racaCounterStore).countP
      (fun r => decide (r.1 = "Não informado")) = 2 := by
  decide

/-- C3 (amended): on every well-formed store, query B keeps one group per
distinct stored breed value: all batches under a `NULL` breed form at most
one group and all batches under an empty-string breed form at most one
further group, each labeled `Não informado` — so a store holding both kinds
yields two groups with that label, not one.  The sum of the published
totals equals the sum of `quantidade` over all batches (every batch carries
a non-null `animal_id` that references an existing animal kind). -/
theorem query_b_groups_and_total (s : Store) (hwf : s.WF) :
    (∀ o : Option String,
       (q2entries s).filter (fun e => decide (e.1 = o)) =
         if racaLotes s o = [] then []
         else [(o, ((racaLotes s o).map Lote.quantidade).sum)])
    ∧ racaLabel none = "Não informado"
    ∧ racaLabel (some "") = "Não informado"
    ∧ ((q2entries s).map (fun e => e.2)).sum = (s.lotes.map Lote.quantidade).sum := by
  obtain ⟨-, -, -, hndA, -, -, href⟩ := hwf
  refine ⟨?groups, rfl, rfl, ?total⟩
  case groups =>
    intro o
    unfold q2entries
    rw [filter_orderByDesc_groupEntries (fun r : Animal × Lote => r.1.raca)
      (joinAL s)
      (fun g => coalesce (sqlSum (g.2.map (fun r => r.2.quantidade))) 0)
      (fun e => e.2) o]
    by_cases hempty : racaLotes s o = []
    · have hrows : racaRows s o = [] := (racaRows_eq_nil_iff s o).mpr hempty
      have hmem : o ∉ keysOf (fun r : Animal × Lote => r.1.raca) (joinAL s) := by
        rw [mem_keysOf_iff_filter_ne_nil, filter_joinAL]
        simp [hrows]
      rw [if_neg hmem, if_pos hempty]
    · have hrows : racaRows s o ≠ [] :=
        fun h => hempty ((racaRows_eq_nil_iff s o).mp h)
      have hmem : o ∈ keysOf (fun r : Animal × Lote => r.1.raca) (joinAL s) := by
        rw [mem_keysOf_iff_filter_ne_nil, filter_joinAL]
        exact hrows
      rw [if_pos hmem, if_neg hempty, filter_joinAL]
      have hsum : (racaRows s o).map (fun r => r.2.quantidade) =
          (racaLotes s o).map Lote.quantidade := by
        rw [← racaRows_map_lote s o, List.map_map]
        rfl
      rw [hsum, coalesce_sqlSum_zero]
  case total =>
    unfold q2entries
    rw [((orderByDesc_perm (fun e : Option String × Int => e.2) _).map
      (fun e : Option String × Int => e.2)).sum_eq]
    rw [List.map_map]
    have hco : ((groupsOf (fun r : Animal × Lote => r.1.raca) (joinAL s)).map
        ((fun e : Option String × Int => e.2) ∘ (fun g =>
          (g.1, coalesce (sqlSum (g.2.map (fun r => r.2.quantidade))) 0)))) =
        (groupsOf (fun r : Animal × Lote => r.1.raca) (joinAL s)).map
          (fun g => ((g.2.map (fun r => r.2.quantidade)).sum)) :=
      List.map_congr_left (fun g hg => coalesce_sqlSum_zero _)
    rw [hco, sum_groupsOf]
    rw [joinAL_eq_flatMap, sum_map_flatMap]
    have hinner : (s.animais.map (fun a =>
        (((s.lotes.filter (fun l => decide (l.animal_id = a.id))).map
          (fun l => (a, l))).map (fun r : Animal × Lote => r.2.quantidade)).sum)) =
        (s.animais.map Animal.id).map (fun k =>
          ((s.lotes.filter (fun l => decide (l.animal_id = k))).map
            Lote.quantidade).sum) := by
      rw [List.map_map]
      exact List.map_congr_left (fun a ha => by rw [List.map_map]; rfl)
    rw [hinner]
    exact sum_map_filter_key Lote.animal_id Lote.quantidade s.lotes
      (s.animais.map Animal.id) hndA
      (fun l hl => by
        obtain ⟨a, ha, hid⟩ := (href l hl).2
        exact List.mem_map.mpr ⟨a, ha, hid⟩)

/-- Witness for C3 (amended) at the counterexample store: the `NULL`-breed
group totals 1 and the empty-string-breed group totals 2. -/
theorem query_b_groups_and_total_witness :
    (q2entries racaCounterStore).filter
        (fun e => decide (e.1 = (none : Option String))) = [(none, 1)] ∧
    (q2entries racaCounterStore).filter
        (fun e => decide (e.1 = (some "" : Option String))) = [(some "", 2)] ∧
    ((q2entries racaCounterStore).map (fun e => e.2)).sum =
      (racaCounterStore.lotes.map Lote.quantidade).sum := by
  have h := query_b_groups_and_total racaCounterStore (by decide)
  refine ⟨?_, ?_, h.2.2.2⟩
  · rw [h.1 none]
    decide
  · rw [h.1 (some "")]
    decide

/-- C4: on every store, the `total_fazendas` values of query D sum to the
number of stored properties, and the properties with an empty `estado`
(the column is `nullable=False`, so null never occurs) fall into exactly
one group — present exactly when such a property exists, counting all of
them — whose label displays as `Não informado`. -/
theorem query_d_farms_per_state (s : Store) :
    ((fazendas_por_estado s).map (fun r => r.2)).sum = (s.propriedades.length : Int)
    ∧ ((q4entries s).filter (fun e => decide (e.1 = "")) =
        if s.propriedades.filter (fun p => decide (p.estado = "")) = [] then []
        else [("", ((s.propriedades.filter (fun p => decide (p.estado = ""))).length : Int))])
    ∧ estadoLabel "" = "Não informado" := by
  refine ⟨?total, ?collapse, rfl⟩
  case total =>
    unfold fazendas_por_estado
    rw [List.map_map]
    show ((q4entries s).map (fun r => r.2)).sum = (s.propriedades.length : Int)
    unfold q4entries
    rw [((orderByDesc_perm (fun e : String × Int => e.2) _).map
      (fun e : String × Int => e.2)).sum_eq, List.map_map]
    have hlen : ((groupsOf Propriedade.estado s.propriedades).map
        ((fun e : String × Int => e.2) ∘ (fun g => (g.1, (g.2.length : Int))))) =
        (groupsOf Propriedade.estado s.propriedades).map
          (fun g => ((g.2.map (fun _ => (1 : Int))).sum)) :=
      List.map_congr_left (fun g hg => (sum_map_one g.2).symm)
    rw [hlen, sum_groupsOf, sum_map_one]
  case collapse =>
    unfold q4entries
    rw [filter_orderByDesc_groupEntries Propriedade.estado s.propriedades
      (fun g => (g.2.length : Int)) (fun e => e.2) ""]
    by_cases hf : s.propriedades.filter (fun p => decide (p.estado = "")) = []
    · have hmem : "" ∉ keysOf Propriedade.estado s.propriedades := by
        rw [mem_keysOf_iff_filter_ne_nil]
        simp [hf]
      rw [if_neg hmem, if_pos hf]
    · have hmem : "" ∈ keysOf Propriedade.estado s.propriedades := by
        rw [mem_keysOf_iff_filter_ne_nil]
        exact hf
      rw [if_pos hmem, if_neg hf]

/-- C5: on every store, each of the four published arrays is ordered by its
aggregate value descending (ties in some unspecified order): summed counts
for queries A and B, summed hectares for query C, and the farm count for
query D. -/
theorem bi_arrays_sorted_desc (s : Store) :
    (animais_por_proprietario s).Pairwise (fun a b => b.2 ≤ a.2)
    ∧ (animais_por_raca s).Pairwise (fun a b => b.2 ≤ a.2)
    ∧ (area_por_proprietario s).Pairwise (fun a b => b.2 ≤ a.2)
    ∧ (fazendas_por_estado s).Pairwise (fun a b => b.2 ≤ a.2) := by
  refine ⟨?qa, ?qb, ?qc, ?qd⟩
  case qa =>
    unfold animais_por_proprietario q1entries
    exact (pairwise_orderByDesc (fun r : Int × String × Int => r.2.2) _).map _
      (fun a b h => h)
  case qb =>
    unfold animais_por_raca q2entries
    exact (pairwise_orderByDesc (fun r : Option String × Int => r.2) _).map _
      (fun a b h => h)
  case qc =>
    unfold area_por_proprietario q3entries
    exact (pairwise_orderByDesc (fun r : Int × String × ℚ => r.2.2) _).map _
      (fun a b h => h)
  case qd =>
    unfold fazendas_por_estado q4entries
    exact (pairwise_orderByDesc (fun r : String × Int => r.2) _).map _
      (fun a b h => h)

/-- C6: the `/api/bi/dashboard` bundle is atomic-fail-all: when all four
queries succeed the response is the success payload holding exactly the
four named arrays with status 200, and when any of the four raises, the
response is a single error object carrying one message with status 500 and
none of the arrays. -/
theorem bi_bundle_atomic (s : Store) (o1 o2 o3 o4 : Option String) :
    ((o1 = none ∧ o2 = none ∧ o3 = none ∧ o4 = none) →
       bi_dashboard s o1 o2 o3 o4 =
         BiResponse.success
           ⟨animais_por_proprietario s, animais_por_raca s,
            area_por_proprietario s, fazendas_por_estado s⟩ ∧
       (bi_dashboard s o1 o2 o3 o4).status = 200)
    ∧ ((o1 ≠ none ∨ o2 ≠ none ∨ o3 ≠ none ∨ o4 ≠ none) →
       ∃ e, bi_dashboard s o1 o2 o3 o4 = BiResponse.failure e ∧
            (bi_dashboard s o1 o2 o3 o4).status = 500) := by
  cases o1 <;> cases o2 <;> cases o3 <;> cases o4 <;>
    simp [bi_dashboard, BiResponse.status]

/-- Witness for C6: on the scenario store the all-success bundle is the
success payload, and a failure of the first query alone yields the single
error response with status 500. -/
theorem bi_bundle_atomic_witness :
    (bi_dashboard anaStore none none none none =
      BiResponse.success
        ⟨animais_por_proprietario anaStore, animais_por_raca anaStore,
         area_por_proprietario anaStore, fazendas_por_estado anaStore⟩)
    ∧ (∃ e, bi_dashboard anaStore (some "db down") none none none =
          BiResponse.failure e ∧
        (bi_dashboard anaStore (some "db down") none none none).status = 500) := by
  constructor
  · exact ((bi_bundle_atomic anaStore none none none none).1
      ⟨rfl, rfl, rfl, rfl⟩).1
  · exact (bi_bundle_atomic anaStore (some "db down") none none none).2
      (Or.inl (by simp))

/-- C7 counterexample: when a statistic computation raises, the `index`
view flashes its single failure message with the `danger` category, not a
warning-level one as the claim states — the flashed list carries zero
entries of category `warning`. -/
theorem index_fail_flash_not_warning :
    (index_view emptyStore (some "db down")).flashes =
      [("Erro ao carregar dados do dashboard: db down", "danger")] ∧
    (index_view emptyStore (some "db down")).flashes.countP
      (fun f => decide (f.2 = "warning")) = 0 := by
  decide

/-- C7 (amended): the dashboard summary is fail-to-zero: when any statistic
computation raises, every scalar statistic renders as zero, both lists
(recent batches and recent activities) render empty, and exactly one
failure message is flashed for the whole bundle — carrying the `danger`
category, not `warning`. -/
theorem index_fail_to_zero (s : Store) (e : String) :
    index_view s (some e) =
      { proprietarios_count := 0, propriedades_count := 0, propriedades_ativas := 0,
        animais_count := 0, tipos_animais := 0, lotes_count := 0, raca_animais := 0,
        lotes_ativos := 0, quantidade_count := 0,
        atividades_recentes := [], lotes := [],
        flashes := [("Erro ao carregar dados do dashboard: " ++ e, "danger")] }
    ∧ (index_view s (some e)).flashes.length = 1 :=
  ⟨rfl, rfl⟩

/-- C8: submitting a new owner whose stripped tax-id is already stored
leaves the owner table (and the whole store) unchanged and flashes a
warning-category message, through the validation branch when the submitted
fields are blank and through the caught `IntegrityError` rollback branch
otherwise; no path raises. -/
theorem duplicate_cpf_rejected (s : Store) (newId : Int)
    (nome cpf_cnpj telefone email : Option String)
    (hdup : ∃ d ∈ s.donos, d.cpf_cnpj = pyStrip cpf_cnpj) :
    (cadastrarProprietario s newId nome cpf_cnpj telefone email).1 = s ∧
    (cadastrarProprietario s newId nome cpf_cnpj telefone email).2.2 = "warning" := by
  unfold cadastrarProprietario
  by_cases hval : pyStrip nome = "" ∨ pyStrip cpf_cnpj = ""
  · simp [hval]
  · have hany : s.donos.any (fun d0 => decide (d0.cpf_cnpj = pyStrip cpf_cnpj)) = true := by
      obtain ⟨d, hd, hc⟩ := hdup
      exact List.any_eq_true.mpr ⟨d, hd, by simp [hc]⟩
    simp [hval, insertDono, hany]

/-- Witness for C8: adding a second owner with the tax-id Ana already holds
leaves the scenario store unchanged and flashes a warning. -/
theorem duplicate_cpf_rejected_witness :
    (cadastrarProprietario anaStore 2 (some "Bia") (some "111.111.111-11")
        none none).1 = anaStore ∧
    (cadastrarProprietario anaStore 2 (some "Bia") (some "111.111.111-11")
        none none).2.2 = "warning" :=
  duplicate_cpf_rejected anaStore 2 (some "Bia") (some "111.111.111-11") none none
    ⟨Dono.mk 1 "Ana" "111.111.111-11" none none, by decide⟩

/-- C9: a batch creation request whose required fields are present and
convertible and whose foreign keys reference stored rows succeeds even when
its `data_registro` field is present but unparsable: the batch is inserted
with a null date, the success message is flashed, and the malformed date
never rejects the creation. -/
theorem malformed_date_stored_null (s : Store) (newId : Int)
    (pidS aidS qtdS dateS : String) (pidV aidV qtdV : Int)
    (hq : pyInt qtdS = some qtdV) (hp : pyInt pidS = some pidV)
    (ha : pyInt aidS = some aidV)
    (hpex : s.propriedades.any (fun p => decide (p.id = pidV)) = true)
    (haex : s.animais.any (fun a => decide (a.id = aidV)) = true)
    (hds : dateS ≠ "") (hbad : parseDate dateS = none) :
    lotes_post s newId (some pidS) (some aidS) (some qtdS) (some dateS) =
      ({ s with lotes := s.lotes ++ [⟨newId, pidV, aidV, qtdV, none⟩] },
       ("Lote registrado com sucesso.", "success")) := by
  have hpne : pidS ≠ "" := by
    intro h
    rw [h] at hp
    exact Option.noConfusion ((show pyInt "" = none by decide) ▸ hp)
  have hane : aidS ≠ "" := by
    intro h
    rw [h] at ha
    exact Option.noConfusion ((show pyInt "" = none by decide) ▸ ha)
  have hqne : qtdS ≠ "" := by
    intro h
    rw [h] at hq
    exact Option.noConfusion ((show pyInt "" = none by decide) ▸ hq)
  unfold lotes_post
  simp only [Option.getD_some]
  rw [if_neg (by simp [hpne, hane, hqne]), hq, if_neg hds, hbad, hp, ha]
  simp [insertLote, hpex, haex]

/-- Witness for C9: on the scenario store, registering a batch of 7 on
property 1 and animal kind 1 with the unparsable date `2023-13-40` stores
the batch with a null date and flashes success. -/
theorem malformed_date_stored_null_witness :
    lotes_post anaStore 2 (some "1") (some "1") (some "7") (some "2023-13-40") =
      ({ anaStore with lotes := anaStore.lotes ++ [⟨2, 1, 1, 7, none⟩] },
       ("Lote registrado com sucesso.", "success")) :=
  malformed_date_stored_null anaStore 2 "1" "1" "7" "2023-13-40" 1 1 7
    (by decide) (by decide) (by decide) (by decide) (by decide)
    (by decide) (by decide)

/-- C10: the JSON endpoint `GET /api/bi/dashboard` never consults the
session: for every session it answers the computed bundle (or its error
response) and is never a redirect, while the login-gated HTML page route
redirects an unauthenticated caller to `login` and renders the page for an
authenticated one. -/
theorem api_bi_dashboard_unauthenticated (sess : Session) (s : Store)
    (o1 o2 o3 o4 : Option String) (u : String) :
    bi_dashboard_route sess s o1 o2 o3 o4 = Response.json (bi_dashboard s o1 o2 o3 o4)
    ∧ bi_dashboard_route sess s o1 o2 o3 o4 =
        bi_dashboard_route (Session.mk none) s o1 o2 o3 o4
    ∧ (bi_dashboard_route sess s o1 o2 o3 o4).isRedirect = false
    ∧ bi_dashboard_page (Session.mk none) = Response.redirect "login"
    ∧ bi_dashboard_page (Session.mk (some u)) = Response.page "bi.html" :=
  ⟨rfl, rfl, rfl, rfl, rfl⟩

end ProGest
